import Mathlib

/-!
Shallow embedding of the Budgeting App backend.

Source of truth: src/back_end/server.js (first generation, lines 1-1083),
src/back_end/schema.sql and
src/back_end/migrations/004_create_period_category_budgets.sql.

Modelling conventions:
* SQL REAL amounts and budget limits are rationals (ℚ); JavaScript performs
  the remaining/percentage derivations on numbers, modelled as exact rational
  arithmetic.
* SQL DATE/DATETIME values are natural numbers written yyyymmdd.  SQLite
  compares ISO-8601 date strings lexicographically, which coincides with the
  numeric order on yyyymmdd, and strftime %Y-%m (the calendar month key used
  by the monthly-trend query) is date / 100.  JavaScript string truthiness
  of a missing/empty date maps to the number 0.
* each SQL table is a Lean list of rows; AUTOINCREMENT ids are passed in
  explicitly by the caller (they model this.lastID).  The unused id column
  of period_category_budgets is omitted.
* db callbacks always succeed in the model; the only modelled failure of an
  INSERT is the schema CHECK constraint on transactions.transaction_type.
  Endpoint handlers that can answer with an HTTP error are embedded as
  Except String Store; handlers that cannot are total functions.
-/

/-- Row of the categories table (schema.sql). -/
structure Category where
  id : Nat
  name : String
  budget_limit : ℚ
  is_active : Bool
deriving Repr, DecidableEq

/-- Row of the transactions table (schema.sql).  The date column defaults to
the insertion time, which the caller of the model passes explicitly. -/
structure Transaction where
  id : Nat
  description : String
  amount : ℚ
  category_id : Option Nat
  transaction_type : String
  date : Nat
deriving Repr, DecidableEq

/-- Row of the budget_periods table. -/
structure BudgetPeriod where
  id : Nat
  period_type : String
  start_date : Nat
  end_date : Nat
  is_active : Bool
deriving Repr, DecidableEq

/-- Row of the period_category_budgets table
(migrations/004_create_period_category_budgets.sql); the AUTOINCREMENT id
column is never read by the server and is omitted. -/
structure PeriodCategoryBudget where
  period_id : Nat
  category_id : Nat
  budget_limit : ℚ
deriving Repr, DecidableEq

/-- The relational store backing the server (db.js / schema.sql). -/
structure Store where
  categories : List Category
  transactions : List Transaction
  periods : List BudgetPeriod
  periodBudgets : List PeriodCategoryBudget
deriving Repr, DecidableEq

/-- The pair of optional date-range conditions that every endpoint assembles
from the start_date / end_date query parameters:
DATE(t.date) >= DATE(?) AND DATE(t.date) <= DATE(?), each only when the
corresponding parameter is supplied. -/
def inWindow (sd ed : Option Nat) (d : Nat) : Bool :=
  (match sd with
   | none => true
   | some s => decide (s ≤ d)) &&
  (match ed with
   | none => true
   | some e => decide (d ≤ e))

/-- SUM(CASE WHEN t.transaction_type = 'expense' THEN t.amount ELSE 0 END)
with COALESCE(..., 0) over an empty group. -/
def expenseSum (ts : List Transaction) : ℚ :=
  ((ts.filter fun t => t.transaction_type == "expense").map fun t => t.amount).sum

/-- SUM(CASE WHEN t.transaction_type = 'income' THEN t.amount ELSE 0 END)
with COALESCE(..., 0) over an empty group. -/
def incomeSum (ts : List Transaction) : ℚ :=
  ((ts.filter fun t => t.transaction_type == "income").map fun t => t.amount).sum

/-- One element of the GET /api/budget-summary response. -/
structure SummaryRow where
  name : String
  budget_limit : ℚ
  spent : ℚ
  income : ℚ
  remaining : ℚ
  percentage : ℚ
deriving Repr, DecidableEq

/-- The derivation the endpoint applies to every aggregated row
(server.js lines 825-829 and 870-874):
remaining = budget_limit - spent and
percentage = budget_limit > 0 ? (spent / budget_limit) * 100 : 0. -/
def mkSummaryRow (name : String) (limit spent income : ℚ) : SummaryRow :=
  { name := name
    budget_limit := limit
    spent := spent
    income := income
    remaining := limit - spent
    percentage := if 0 < limit then spent / limit * 100 else 0 }

/-- WHERE c.name != 'Income' AND c.is_active = 1, shared by both branches of
GET /api/budget-summary. -/
def activeNonIncome (st : Store) : List Category :=
  st.categories.filter fun c => c.is_active && c.name != "Income"

/-- LEFT JOIN period_category_budgets pcb
ON c.id = pcb.category_id AND pcb.period_id = ?.  The UNIQUE(period_id,
category_id) constraint of the table guarantees at most one matching row,
which find? selects. -/
def findOverride (st : Store) (pid : Nat) (c : Category) : Option PeriodCategoryBudget :=
  st.periodBudgets.find? fun p => p.period_id == pid && p.category_id == c.id

/-- COALESCE(pcb.budget_limit, c.budget_limit) in the period branch of
GET /api/budget-summary (server.js line 804). -/
def periodLimit (st : Store) (pid : Nat) (c : Category) : ℚ :=
  match findOverride st pid c with
  | some p => p.budget_limit
  | none => c.budget_limit

/-- The transactions of category c that satisfy the date conditions placed in
the ON clause of LEFT JOIN transactions in the period branch
(server.js lines 809-811). -/
def catTransactionsInWindow (st : Store) (c : Category) (sd ed : Option Nat) :
    List Transaction :=
  st.transactions.filter fun t => t.category_id == some c.id && inWindow sd ed t.date

/-- The period branch of GET /api/budget-summary (server.js lines 800-832):
one aggregated row per active non-Income category (the date conditions live
in the ON clause, so the NULL-extended join row keeps every category in its
group), then the remaining/percentage derivation. -/
def budgetSummaryPeriod (st : Store) (pid : Nat) (sd ed : Option Nat) :
    List SummaryRow :=
  (activeNonIncome st).map fun c =>
    let ts := catTransactionsInWindow st c sd ed
    mkSummaryRow c.name (periodLimit st pid c) (expenseSum ts) (incomeSum ts)

/-- LEFT JOIN transactions t ON c.id = t.category_id in the default branch:
the join rows produced for one category, a single NULL-extended row when the
category matches no transaction. -/
def leftJoinRows (st : Store) (c : Category) : List (Option Transaction) :=
  let ms := st.transactions.filter fun t => t.category_id == some c.id
  if ms.isEmpty then [none] else ms.map some

/-- The WHERE-clause date conditions of the default branch (server.js lines
850-858): (t.id IS NULL OR DATE(t.date) >= DATE(?)) AND
(t.id IS NULL OR DATE(t.date) <= DATE(?)), each only when supplied.  Because
transactions.id is NOT NULL, t.id IS NULL holds exactly on the NULL-extended
join row. -/
def rowPassesDateFilters (sd ed : Option Nat) : Option Transaction → Bool
  | none => true
  | some t => inWindow sd ed t.date

/-- The default branch of GET /api/budget-summary (server.js lines 833-878):
the date conditions are applied in the WHERE clause after the left join, so a
category is present in the grouped output exactly when at least one of its
join rows survives the filter. -/
def budgetSummaryDefault (st : Store) (sd ed : Option Nat) : List SummaryRow :=
  (activeNonIncome st).filterMap fun c =>
    let kept := (leftJoinRows st c).filter (rowPassesDateFilters sd ed)
    if kept.isEmpty then none
    else
      let ts := kept.filterMap id
      some (mkSummaryRow c.name c.budget_limit (expenseSum ts) (incomeSum ts))

/-- GET /api/budget-summary (server.js lines 796-879): if (period_id) use the
period branch, else the default branch.  The handler has no input-validation
or not-found responses; it always answers 200 with the computed rows. -/
def budgetSummary (st : Store) (sd ed : Option Nat) (pid : Option Nat) :
    List SummaryRow :=
  match pid with
  | some p => budgetSummaryPeriod st p sd ed
  | none => budgetSummaryDefault st sd ed

/-- POST /api/transactions (server.js lines 81-106).  Validation is pure
JavaScript truthiness on the three required fields: an empty description, an
amount equal to 0 and an empty transaction_type are the only rejected values
(NaN, the other falsy number, has no ℚ counterpart).  The INSERT then runs
against the schema, whose CHECK(transaction_type IN ('income', 'expense'))
makes the db call fail for any other type string; no constraint restricts the
sign of amount. -/
def createTransaction (st : Store) (newId : Nat) (description : String)
    (amount : ℚ) (category_id : Option Nat) (ttype : String) (now : Nat) :
    Except String Store :=
  if description == "" || amount == 0 || ttype == "" then
    .error "Missing required fields"
  else if !(ttype == "income" || ttype == "expense") then
    .error "CHECK constraint failed: transaction_type"
  else
    .ok { st with transactions :=
      st.transactions ++
        [{ id := newId, description := description, amount := amount,
           category_id := category_id, transaction_type := ttype, date := now }] }

/-- PUT /api/transactions/:id (server.js lines 114-196).  A none argument is
an absent body field.  The handler first requires at least one truthy field,
then validates each supplied field (description non-empty after trim, amount
strictly positive, type income or expense), then checks existence, then
updates exactly the supplied columns of the matching row. -/
def updateTransaction (st : Store) (tid : Nat) (descU : Option String)
    (amountU : Option ℚ) (cidU : Option (Option Nat)) (typeU : Option String)
    (dateU : Option Nat) : Except String Store :=
  let anyTruthy :=
    (match descU with | some s => !(s == "") | none => false) ||
    (match amountU with | some a => !(a == 0) | none => false) ||
    (match cidU with | some (some n) => !(n == 0) | _ => false) ||
    (match typeU with | some s => !(s == "") | none => false) ||
    (match dateU with | some d => !(d == 0) | none => false)
  if !anyTruthy then
    .error "At least one field must be provided to update"
  else if (match descU with | some s => s.trim == "" | none => false) then
    .error "Description cannot be empty"
  else if (match amountU with | some a => decide (a ≤ 0) | none => false) then
    .error "Amount must be a positive number"
  else if (match typeU with
           | some s => !(s == "income" || s == "expense")
           | none => false) then
    .error "Transaction type must be income or expense"
  else if st.transactions.all fun t => !(t.id == tid) then
    .error "Transaction not found"
  else
    .ok { st with transactions := st.transactions.map fun t =>
      if t.id == tid then
        { t with
          description := (match descU with | some s => s.trim | none => t.description)
          amount := (match amountU with | some a => a | none => t.amount)
          category_id := (match cidU with | some c => c | none => t.category_id)
          transaction_type := (match typeU with | some s => s | none => t.transaction_type)
          date := (match dateU with | some d => d | none => t.date) }
      else t }

/-- The possible responses of DELETE /api/categories/:id. -/
inductive CatDeleteStatus where
  | notFound
  | conflict (transaction_count : Nat)
  | hardDeleted
  | softDeleted (hadTransactions : Bool)
deriving Repr, DecidableEq

/-- SELECT COUNT(*) FROM transactions WHERE category_id = ? (server.js line
426). -/
def referencingCount (st : Store) (cid : Nat) : Nat :=
  (st.transactions.filter fun t => t.category_id == some cid).length

/-- DELETE /api/categories/:id (server.js lines 412-471).  hardDelete is the
hard_delete=true query flag.  The returned store is unchanged on the
notFound and conflict responses. -/
def deleteCategory (st : Store) (cid : Nat) (hardDelete : Bool) :
    CatDeleteStatus × Store :=
  match st.categories.find? fun c => c.id == cid with
  | none => (.notFound, st)
  | some _ =>
    let cnt := referencingCount st cid
    let hasTransactions := decide (0 < cnt)
    if hasTransactions && hardDelete then
      (.conflict cnt, st)
    else if hardDelete && !hasTransactions then
      (.hardDeleted, { st with categories := st.categories.filter fun c => !(c.id == cid) })
    else
      (.softDeleted hasTransactions,
       { st with categories := st.categories.map fun c =>
           if c.id == cid then { c with is_active := false } else c })

/-- The overlap condition of the overlapQuery of POST /api/periods
(server.js lines 557-565), evaluated against one stored period:
(DATE(new_start) BETWEEN DATE(start_date) AND DATE(end_date))
OR (DATE(new_end) BETWEEN DATE(start_date) AND DATE(end_date))
OR (DATE(start_date) BETWEEN DATE(new_start) AND DATE(new_end)). -/
def overlapsTest (ns ne ps pe : Nat) : Bool :=
  (decide (ps ≤ ns) && decide (ns ≤ pe)) ||
  (decide (ps ≤ ne) && decide (ne ≤ pe)) ||
  (decide (ns ≤ ps) && decide (ps ≤ ne))

/-- POST /api/periods (server.js lines 540-612): truthiness check of the
three required fields, period_type whitelist, end before start rejection,
overlapQuery rejection against active periods, then the period INSERT
followed by the copyBudgets INSERT ... SELECT that snapshots every active
category budget limit into override rows for the new period. -/
def createPeriod (st : Store) (newId : Nat) (ptype : String) (sdate edate : Nat) :
    Except String Store :=
  if ptype == "" || sdate == 0 || edate == 0 then
    .error "period_type, start_date, and end_date are required"
  else if !(["weekly", "monthly", "yearly"].contains ptype) then
    .error "period_type must be weekly, monthly, or yearly"
  else if edate < sdate then
    .error "end_date must be after start_date"
  else if (st.periods.find? fun p =>
      overlapsTest sdate edate p.start_date p.end_date && p.is_active).isSome then
    .error "Period dates overlap with existing active period"
  else
    .ok { st with
      periods := st.periods ++
        [{ id := newId, period_type := ptype, start_date := sdate,
           end_date := edate, is_active := true }],
      periodBudgets := st.periodBudgets ++
        ((st.categories.filter fun c => c.is_active).map fun c =>
          { period_id := newId, category_id := c.id, budget_limit := c.budget_limit }) }

/-- One UPDATE statement of PUT /api/periods/:id/budgets (server.js lines
757-761) applied to one stored override row: SET budget_limit = ?
WHERE period_id = ? AND category_id = ?. -/
def applyBudgetEntry (pid : Nat) (e : Nat × ℚ) (r : PeriodCategoryBudget) :
    PeriodCategoryBudget :=
  if r.period_id == pid && r.category_id == e.1 then { r with budget_limit := e.2 } else r

/-- PUT /api/periods/:id/budgets (server.js lines 737-778): reject a
non-array or empty body, 404 when the period id matches no row, then run one
UPDATE per entry in order; every UPDATE that matches no row simply changes
nothing and the endpoint still reports success. -/
def updatePeriodBudgets (st : Store) (pid : Nat) (budgets : List (Nat × ℚ)) :
    Except String Store :=
  if budgets.isEmpty then
    .error "Request body must be an array of budget objects"
  else if (st.periods.find? fun p => p.id == pid).isNone then
    .error "Period not found"
  else
    .ok { st with periodBudgets :=
      budgets.foldl (fun rows e => rows.map (applyBudgetEntry pid e)) st.periodBudgets }

/-- strftime('%Y-%m', date) on a yyyymmdd date drops the day digits. -/
def txMonth (t : Transaction) : Nat := t.date / 100

/-- Insertion of one month key into a duplicate-free list sorted in
descending order; folding it over all keys models
GROUP BY strftime('%Y-%m', date) ... ORDER BY month DESC. -/
def insertMonthDesc (m : Nat) : List Nat → List Nat
  | [] => [m]
  | x :: xs => if x < m then m :: x :: xs else if m == x then x :: xs else x :: insertMonthDesc m xs

/-- The distinct month keys of a list, in descending order. -/
def monthsDesc (ms : List Nat) : List Nat := ms.foldr insertMonthDesc []

/-- One element of the GET /api/charts/monthly-trend response. -/
structure TrendRow where
  month : Nat
  income : ℚ
  expenses : ℚ
deriving Repr, DecidableEq

/-- GET /api/charts/monthly-trend (server.js lines 929-973): filter by the
optional date window, group by calendar month with the income and expense
sums, order by month descending, apply LIMIT 12 only when neither bound was
supplied, and finally reverse so the response runs oldest to newest. -/
def monthlyTrend (st : Store) (sd ed : Option Nat) : List TrendRow :=
  let ts := st.transactions.filter fun t => inWindow sd ed t.date
  let allMonths := monthsDesc (ts.map txMonth)
  let limited := if sd.isNone && ed.isNone then allMonths.take 12 else allMonths
  (limited.map fun m =>
    let mts := ts.filter fun t => txMonth t == m
    { month := m, income := incomeSum mts, expenses := expenseSum mts }).reverse

/-- Answer of an Except-valued handler that produced an HTTP error. -/
def respError (r : Except String Store) : Bool :=
  match r with
  | .error _ => true
  | .ok _ => false

/-- Store returned by a successful Except-valued handler. -/
def respStore (r : Except String Store) : Option Store :=
  match r with
  | .error _ => none
  | .ok s => some s

/-! Small unfolding lemmas about the summary-row derivation and the sums. -/

@[simp] lemma expenseSum_nil : expenseSum [] = 0 := rfl

@[simp] lemma incomeSum_nil : incomeSum [] = 0 := rfl

@[simp] lemma mkSummaryRow_name (n : String) (l s i : ℚ) :
    (mkSummaryRow n l s i).name = n := rfl

@[simp] lemma mkSummaryRow_budget_limit (n : String) (l s i : ℚ) :
    (mkSummaryRow n l s i).budget_limit = l := rfl

@[simp] lemma mkSummaryRow_spent (n : String) (l s i : ℚ) :
    (mkSummaryRow n l s i).spent = s := rfl

@[simp] lemma mkSummaryRow_remaining (n : String) (l s i : ℚ) :
    (mkSummaryRow n l s i).remaining = l - s := rfl

lemma mkSummaryRow_percentage (n : String) (l s i : ℚ) :
    (mkSummaryRow n l s i).percentage = if 0 < l then s / l * 100 else 0 := rfl

/-- A store for concrete instantiations: one active category with a default
limit and no transactions. -/
def oneCatStore : Store :=
  { categories := [{ id := 1, name := "Food", budget_limit := 100, is_active := true }]
    transactions := []
    periods := []
    periodBudgets := [] }

/-- C4: in every budget-summary row, a strictly positive limit yields
percentage = (spent / limit) * 100 and a zero limit yields percentage = 0;
the division branch is guarded exactly by limit > 0. -/
theorem budget_summary_percentage_guard (st : Store) (sd ed : Option Nat)
    (pid : Option Nat) (row : SummaryRow)
    (hrow : row ∈ budgetSummary st sd ed pid) :
    (0 < row.budget_limit → row.percentage = row.spent / row.budget_limit * 100) ∧
    (row.budget_limit = 0 → row.percentage = 0) := by
  have key : ∀ (n : String) (l s i : ℚ),
      (0 < (mkSummaryRow n l s i).budget_limit →
        (mkSummaryRow n l s i).percentage =
          (mkSummaryRow n l s i).spent / (mkSummaryRow n l s i).budget_limit * 100) ∧
      ((mkSummaryRow n l s i).budget_limit = 0 →
        (mkSummaryRow n l s i).percentage = 0) := by
    intro n l s i
    refine ⟨fun h => ?_, fun h => ?_⟩
    · simp only [mkSummaryRow_percentage, mkSummaryRow_spent, mkSummaryRow_budget_limit] at *
      rw [if_pos h]
    · simp only [mkSummaryRow_percentage, mkSummaryRow_budget_limit] at *
      simp [h]
  cases pid with
  | some p =>
    obtain ⟨c, _, rfl⟩ := List.mem_map.mp hrow
    exact key ..
  | none =>
    obtain ⟨c, _, heq⟩ := List.mem_filterMap.mp hrow
    dsimp only at heq
    split at heq
    · exact absurd heq (by simp)
    · obtain rfl := Option.some.inj heq
      exact key ..

/-- Witness for C4 at a concrete store with one zero-spend category. -/
theorem budget_summary_percentage_guard_witness :
    mkSummaryRow "Food" 100 0 0 ∈ budgetSummary oneCatStore none none none ∧
    ((0 < (mkSummaryRow "Food" 100 0 0).budget_limit →
        (mkSummaryRow "Food" 100 0 0).percentage =
          (mkSummaryRow "Food" 100 0 0).spent /
            (mkSummaryRow "Food" 100 0 0).budget_limit * 100) ∧
     ((mkSummaryRow "Food" 100 0 0).budget_limit = 0 →
        (mkSummaryRow "Food" 100 0 0).percentage = 0)) := by
  have hmem : mkSummaryRow "Food" 100 0 0 ∈ budgetSummary oneCatStore none none none := by
    have h : budgetSummary oneCatStore none none none = [mkSummaryRow "Food" 100 0 0] := rfl
    rw [h]
    exact List.mem_singleton.mpr rfl
  exact ⟨hmem, budget_summary_percentage_guard oneCatStore none none none _ hmem⟩

/-- Membership in the WHERE filter shared by both summary branches. -/
lemma mem_activeNonIncome {st : Store} {c : Category} (hc : c ∈ st.categories)
    (hact : c.is_active = true) (hni : c.name ≠ "Income") :
    c ∈ activeNonIncome st := by
  refine List.mem_filter.mpr ⟨hc, ?_⟩
  simp [hact, hni]

/-- The summary row the period branch produces for one category. -/
lemma budgetSummaryPeriod_row {st : Store} {c : Category} (pid : Nat)
    (sd ed : Option Nat) (hc : c ∈ activeNonIncome st) :
    mkSummaryRow c.name (periodLimit st pid c)
        (expenseSum (catTransactionsInWindow st c sd ed))
        (incomeSum (catTransactionsInWindow st c sd ed)) ∈
      budgetSummaryPeriod st pid sd ed :=
  List.mem_map.mpr ⟨c, hc, rfl⟩

/-- C1: with a period_id and an explicit date range, the limit of a category
comes from the period override while spent only sums in-range transactions;
a category whose transactions all fall outside the range gets
spent = 0, remaining = override limit, percentage = 0. -/
theorem budget_summary_period_window_independent (st : Store) (pid : Nat)
    (s e : Nat) (c : Category) (ov : PeriodCategoryBudget)
    (hc : c ∈ st.categories) (hact : c.is_active = true) (hni : c.name ≠ "Income")
    (hov : findOverride st pid c = some ov)
    (hout : ∀ t ∈ st.transactions, t.category_id = some c.id →
      inWindow (some s) (some e) t.date = false) :
    ∃ row ∈ budgetSummary st (some s) (some e) (some pid),
      row.name = c.name ∧ row.budget_limit = ov.budget_limit ∧ row.spent = 0 ∧
      row.remaining = ov.budget_limit ∧ row.percentage = 0 := by
  have hmem := mem_activeNonIncome hc hact hni
  have hts : catTransactionsInWindow st c (some s) (some e) = [] := by
    rw [catTransactionsInWindow, List.filter_eq_nil_iff]
    intro t ht
    by_cases hcat : t.category_id = some c.id
    · simp [hcat, hout t ht hcat]
    · simp [hcat]
  have hL : periodLimit st pid c = ov.budget_limit := by
    simp [periodLimit, hov]
  refine ⟨_, budgetSummaryPeriod_row pid (some s) (some e) hmem, rfl, ?_, ?_, ?_, ?_⟩
  · simp [hL]
  · simp [hts]
  · simp [hts, hL]
  · rw [mkSummaryRow_percentage, hts]
    split <;> simp

/-- The store of the spec scenario behind C1: category Food with default
limit 500, a period override Food to 300, and a single Food expense dated
inside the period but outside the queried range. -/
def scenarioStoreC1 : Store :=
  { categories := [{ id := 1, name := "Food", budget_limit := 500, is_active := true }]
    transactions := [{ id := 1, description := "Groceries", amount := 120,
                       category_id := some 1, transaction_type := "expense",
                       date := 20250105 }]
    periods := [{ id := 1, period_type := "monthly", start_date := 20250101,
                  end_date := 20250131, is_active := true }]
    periodBudgets := [{ period_id := 1, category_id := 1, budget_limit := 300 }] }

/-- Witness for C1: the scenario store queried with period 1 and the range
Feb 1 to Feb 28, which excludes the only Food transaction. -/
theorem budget_summary_period_window_independent_witness :
    (({ id := 1, name := "Food", budget_limit := 500, is_active := true } : Category)
        ∈ scenarioStoreC1.categories ∧
     findOverride scenarioStoreC1 1
        { id := 1, name := "Food", budget_limit := 500, is_active := true } =
       some { period_id := 1, category_id := 1, budget_limit := 300 } ∧
     (∀ t ∈ scenarioStoreC1.transactions, t.category_id = some 1 →
        inWindow (some 20250201) (some 20250228) t.date = false)) ∧
    (∃ row ∈ budgetSummary scenarioStoreC1 (some 20250201) (some 20250228) (some 1),
      row.name = "Food" ∧ row.budget_limit = 300 ∧ row.spent = 0 ∧
      row.remaining = 300 ∧ row.percentage = 0) :=
  ⟨⟨by decide, by decide, by decide⟩,
   budget_summary_period_window_independent scenarioStoreC1 1 20250201 20250228
     { id := 1, name := "Food", budget_limit := 500, is_active := true }
     { period_id := 1, category_id := 1, budget_limit := 300 }
     (by decide) (by decide) (by decide) (by decide) (by decide)⟩

/-- C3: with a period_id, a category's limit is the override row when one
exists and the category default otherwise; a period_id matching no period
(with referential integrity of the override table) makes every category fall
back to its default, and the handler still answers with one row per active
non-Income category instead of an error. -/
theorem budget_summary_limit_source (st : Store) (pid : Nat) (sd ed : Option Nat) :
    (∀ c ∈ activeNonIncome st, ∀ ov, findOverride st pid c = some ov →
      ∃ row ∈ budgetSummary st sd ed (some pid),
        row.name = c.name ∧ row.budget_limit = ov.budget_limit) ∧
    (∀ c ∈ activeNonIncome st, findOverride st pid c = none →
      ∃ row ∈ budgetSummary st sd ed (some pid),
        row.name = c.name ∧ row.budget_limit = c.budget_limit) ∧
    ((∀ pb ∈ st.periodBudgets, ∃ p ∈ st.periods, p.id = pb.period_id) →
     (∀ p ∈ st.periods, p.id ≠ pid) →
      (budgetSummary st sd ed (some pid)).length = (activeNonIncome st).length ∧
      ∀ c ∈ activeNonIncome st,
        ∃ row ∈ budgetSummary st sd ed (some pid),
          row.name = c.name ∧ row.budget_limit = c.budget_limit) := by
  have hrow : ∀ c ∈ activeNonIncome st,
      ∃ row ∈ budgetSummary st sd ed (some pid),
        row.name = c.name ∧ row.budget_limit = periodLimit st pid c := by
    intro c hc
    exact ⟨_, budgetSummaryPeriod_row pid sd ed hc, rfl, rfl⟩
  refine ⟨?_, ?_, ?_⟩
  · intro c hc ov hov
    obtain ⟨row, hm, hn, hl⟩ := hrow c hc
    exact ⟨row, hm, hn, by rw [hl]; simp [periodLimit, hov]⟩
  · intro c hc hnone
    obtain ⟨row, hm, hn, hl⟩ := hrow c hc
    exact ⟨row, hm, hn, by rw [hl]; simp [periodLimit, hnone]⟩
  · intro hFK hno
    have hnone : ∀ c : Category, findOverride st pid c = none := by
      intro c
      rw [findOverride, List.find?_eq_none]
      intro pb hpb
      obtain ⟨p, hp, hpid⟩ := hFK pb hpb
      have : pb.period_id ≠ pid := hpid ▸ hno p hp
      simp [this]
    refine ⟨List.length_map _ _, fun c hc => ?_⟩
    obtain ⟨row, hm, hn, hl⟩ := hrow c hc
    exact ⟨row, hm, hn, by rw [hl]; simp [periodLimit, hnone c]⟩

/-- Store for the C3 witness: one active category, one override row that
belongs to period 1 only. -/
def overrideStoreC3 : Store :=
  { categories := [{ id := 1, name := "Food", budget_limit := 500, is_active := true }]
    transactions := []
    periods := [{ id := 1, period_type := "monthly", start_date := 20250101,
                  end_date := 20250131, is_active := true }]
    periodBudgets := [{ period_id := 1, category_id := 1, budget_limit := 300 }] }

/-- Witness for C3: querying the nonexistent period 2 succeeds and every
category keeps its default limit, while querying period 1 uses the override. -/
theorem budget_summary_limit_source_witness :
    ((budgetSummary overrideStoreC3 none none (some 2)).length =
        (activeNonIncome overrideStoreC3).length ∧
     ∀ c ∈ activeNonIncome overrideStoreC3,
       ∃ row ∈ budgetSummary overrideStoreC3 none none (some 2),
         row.name = c.name ∧ row.budget_limit = c.budget_limit) ∧
    (∃ row ∈ budgetSummary overrideStoreC3 none none (some 1),
       row.name = "Food" ∧ row.budget_limit = (300 : ℚ)) :=
  ⟨(budget_summary_limit_source overrideStoreC3 2 none none).2.2
      (by decide) (by decide),
   (budget_summary_limit_source overrideStoreC3 1 none none).1
      { id := 1, name := "Food", budget_limit := 500, is_active := true }
      (by decide) { period_id := 1, category_id := 1, budget_limit := 300 }
      (by decide)⟩

/-- Store refuting C2: one active non-Income category whose only transaction
is dated Jan 5, queried with start_date Feb 1 and no period. -/
def cexStoreC2 : Store :=
  { categories := [{ id := 1, name := "Food", budget_limit := 100, is_active := true }]
    transactions := [{ id := 1, description := "Old groceries", amount := 50,
                       category_id := some 1, transaction_type := "expense",
                       date := 20250105 }]
    periods := []
    periodBudgets := [] }

/-- Counterexample to C2: in the default branch with a date range, the active
non-Income category Food — whose only transaction falls before the range —
has no summary row at all (the result is empty), instead of appearing with
spent = 0. -/
theorem budget_summary_default_omits_filtered_category :
    activeNonIncome cexStoreC2 =
      [{ id := 1, name := "Food", budget_limit := 100, is_active := true }] ∧
    budgetSummary cexStoreC2 (some 20250201) none none = [] :=
  ⟨rfl, rfl⟩

/-- C2 as amended: the period branch always has exactly one row per active
non-Income category, with spent = 0 when nothing matches the window; the
default branch keeps a category when it has no referencing transactions at
all (spent = 0) or when one of its transactions lies in the window — but not
when every referencing transaction falls outside an explicit range. -/
theorem budget_summary_row_presence (st : Store) (sd ed : Option Nat) :
    (∀ pid : Nat,
      (budgetSummary st sd ed (some pid)).length = (activeNonIncome st).length ∧
      ∀ c ∈ activeNonIncome st,
        ∃ row ∈ budgetSummary st sd ed (some pid), row.name = c.name ∧
          (catTransactionsInWindow st c sd ed = [] → row.spent = 0)) ∧
    (∀ c ∈ activeNonIncome st,
      (∀ t ∈ st.transactions, t.category_id ≠ some c.id) →
      ∃ row ∈ budgetSummary st sd ed none, row.name = c.name ∧ row.spent = 0) ∧
    (∀ c ∈ activeNonIncome st,
      (∃ t ∈ st.transactions, t.category_id = some c.id ∧ inWindow sd ed t.date = true) →
      ∃ row ∈ budgetSummary st sd ed none, row.name = c.name) := by
  refine ⟨fun pid => ⟨List.length_map _ _, fun c hc => ?_⟩, fun c hc hnone => ?_, fun c hc hsome => ?_⟩
  · refine ⟨_, budgetSummaryPeriod_row pid sd ed hc, rfl, fun hts => ?_⟩
    simp [hts]
  · have hms : st.transactions.filter (fun t => t.category_id == some c.id) = [] := by
      rw [List.filter_eq_nil_iff]
      intro t ht
      simp [hnone t ht]
    have hjoin : leftJoinRows st c = [none] := by
      rw [leftJoinRows]
      simp [hms]
    refine ⟨mkSummaryRow c.name c.budget_limit 0 0, List.mem_filterMap.mpr ⟨c, hc, ?_⟩, rfl, rfl⟩
    dsimp only
    rw [hjoin]
    rfl
  · obtain ⟨t, ht, hcat, hwin⟩ := hsome
    have hms : t ∈ st.transactions.filter (fun t => t.category_id == some c.id) :=
      List.mem_filter.mpr ⟨ht, by simp [hcat]⟩
    have hne : (st.transactions.filter (fun t => t.category_id == some c.id)).isEmpty = false := by
      rcases hx : st.transactions.filter (fun t => t.category_id == some c.id) with _ | ⟨a, l⟩
      · rw [hx] at hms; exact absurd hms (List.not_mem_nil t)
      · simp [hx]
    have hjoin : leftJoinRows st c =
        (st.transactions.filter (fun t => t.category_id == some c.id)).map some := by
      rw [leftJoinRows]
      simp [hne]
    have hkept : some t ∈ (leftJoinRows st c).filter (rowPassesDateFilters sd ed) := by
      rw [hjoin]
      exact List.mem_filter.mpr ⟨List.mem_map_of_mem some hms, by simp [rowPassesDateFilters, hwin]⟩
    have hkne : ((leftJoinRows st c).filter (rowPassesDateFilters sd ed)).isEmpty = false := by
      rcases hx : (leftJoinRows st c).filter (rowPassesDateFilters sd ed) with _ | ⟨a, l⟩
      · rw [hx] at hkept; exact absurd hkept (List.not_mem_nil _)
      · simp [hx]
    refine ⟨mkSummaryRow c.name c.budget_limit
        (expenseSum (((leftJoinRows st c).filter (rowPassesDateFilters sd ed)).filterMap id))
        (incomeSum (((leftJoinRows st c).filter (rowPassesDateFilters sd ed)).filterMap id)),
      List.mem_filterMap.mpr ⟨c, hc, ?_⟩, rfl⟩
    dsimp only
    rw [if_neg (by simp [hkne])]

/-- Witness for the amended C2: a category with no referencing transactions
still gets a zero-spent row under a date filter, and the period branch keeps
one row per category even for an unknown period id. -/
theorem budget_summary_row_presence_witness :
    (∃ row ∈ budgetSummary oneCatStore (some 20250201) none none,
       row.name = "Food" ∧ row.spent = 0) ∧
    (budgetSummary oneCatStore none none (some 7)).length =
      (activeNonIncome oneCatStore).length :=
  ⟨(budget_summary_row_presence oneCatStore (some 20250201) none).2.1
      { id := 1, name := "Food", budget_limit := 100, is_active := true }
      (by decide) (by decide),
   ((budget_summary_row_presence oneCatStore none none).1 7).1⟩

/-- The three BETWEEN disjuncts of the overlapQuery are exactly closed
interval intersection, for well-formed ranges. -/
lemma overlapsTest_iff_intersects {ns ne ps pe : Nat} (h1 : ns ≤ ne) (h2 : ps ≤ pe) :
    overlapsTest ns ne ps pe = true ↔
      ∃ d : Nat, ns ≤ d ∧ d ≤ ne ∧ ps ≤ d ∧ d ≤ pe := by
  unfold overlapsTest
  simp only [Bool.or_eq_true, Bool.and_eq_true, decide_eq_true_eq]
  constructor
  · rintro ((⟨a, b⟩ | ⟨a, b⟩) | ⟨a, b⟩)
    · exact ⟨ns, le_refl ns, h1, a, b⟩
    · exact ⟨ne, h1, le_refl ne, a, b⟩
    · exact ⟨ps, a, b, le_refl ps, h2⟩
  · rintro ⟨d, hd1, hd2, hd3, hd4⟩
    rcases Nat.le_total ps ns with h | h
    · exact Or.inl (Or.inl ⟨h, le_trans hd1 hd4⟩)
    · exact Or.inr ⟨h, le_trans hd3 hd2⟩

/-- C5: period creation (here with the valid type monthly and a well-ordered
nonzero new range, against well-formed active periods) is rejected exactly
when the new closed range intersects some existing active period's closed
range. -/
theorem period_creation_overlap_rejection (st : Store) (newId ns ne : Nat)
    (hns : ns ≠ 0) (hne : ne ≠ 0) (hord : ns ≤ ne)
    (hwf : ∀ p ∈ st.periods, p.is_active = true → p.start_date ≤ p.end_date) :
    respError (createPeriod st newId "monthly" ns ne) = true ↔
      ∃ p ∈ st.periods, p.is_active = true ∧
        ∃ d : Nat, ns ≤ d ∧ d ≤ ne ∧ p.start_date ≤ d ∧ d ≤ p.end_date := by
  rw [createPeriod, if_neg (by simp [hns, hne]), if_neg (by decide),
    if_neg (Nat.not_lt.mpr hord)]
  constructor
  · intro h
    by_cases hfind : (st.periods.find? fun p =>
        overlapsTest ns ne p.start_date p.end_date && p.is_active).isSome
    · obtain ⟨p, hp, hpred⟩ := List.find?_isSome.mp hfind
      simp only [Bool.and_eq_true] at hpred
      exact ⟨p, hp, hpred.2,
        (overlapsTest_iff_intersects hord (hwf p hp hpred.2)).mp hpred.1⟩
    · rw [if_neg (by simp_all)] at h
      exact absurd h (by simp [respError])
  · rintro ⟨p, hp, hact, hint⟩
    have hpred : (overlapsTest ns ne p.start_date p.end_date && p.is_active) = true := by
      rw [Bool.and_eq_true]
      exact ⟨(overlapsTest_iff_intersects hord (hwf p hp hact)).mpr hint, hact⟩
    have hfind : (st.periods.find? fun p =>
        overlapsTest ns ne p.start_date p.end_date && p.is_active).isSome := by
      rw [List.find?_isSome]
      exact ⟨p, hp, hpred⟩
    rw [if_pos hfind]
    rfl

/-- Store for the C5 witness: the two active periods Jan 1 to Jan 31 and
Feb 1 to Feb 28 of the spec scenario. -/
def twoPeriodStore : Store :=
  { categories := []
    transactions := []
    periods := [{ id := 1, period_type := "monthly", start_date := 20250101,
                  end_date := 20250131, is_active := true },
                { id := 2, period_type := "monthly", start_date := 20250201,
                  end_date := 20250228, is_active := true }]
    periodBudgets := [] }

/-- Witness for C5, the spec scenario: creating Jan 15 to Feb 15 against the
two existing periods is rejected. -/
theorem period_creation_overlap_rejection_witness :
    respError (createPeriod twoPeriodStore 3 "monthly" 20250115 20250215) = true :=
  (period_creation_overlap_rejection twoPeriodStore 3 20250115 20250215
      (by decide) (by decide) (by decide) (by decide)).mpr
    ⟨{ id := 1, period_type := "monthly", start_date := 20250101,
       end_date := 20250131, is_active := true },
     by decide, rfl, 20250115, by decide, by decide, by decide, by decide⟩

/-- True when some stored transaction has a non-positive amount. -/
def hasNonPositiveAmount (st : Store) : Bool :=
  st.transactions.any fun t => decide (t.amount ≤ 0)

/-- The empty store. -/
def emptyStore : Store :=
  { categories := [], transactions := [], periods := [], periodBudgets := [] }

/-- Counterexample to C6: the create endpoint checks only JavaScript
truthiness, so a request with amount -5 passes validation, is inserted, and
the reached store contains a transaction with amount below zero. -/
theorem transaction_create_accepts_negative_amount :
    respStore (createTransaction emptyStore 1 "Groceries" (-5) none "expense" 20250101) =
      some { emptyStore with transactions :=
        [{ id := 1, description := "Groceries", amount := -5, category_id := none,
           transaction_type := "expense", date := 20250101 }] } ∧
    hasNonPositiveAmount { emptyStore with transactions :=
        [{ id := 1, description := "Groceries", amount := -5, category_id := none,
           transaction_type := "expense", date := 20250101 }] } = true :=
  ⟨rfl, by decide⟩

/-- C6 as amended: the update endpoint rejects every request whose supplied
amount is non-positive, but the create endpoint accepts any nonzero amount,
including negative ones, which it stores unchanged — so stores containing a
transaction with amount < 0 are reachable. -/
theorem transaction_amount_validation (st : Store) (tid : Nat)
    (descU : Option String) (a : ℚ) (cidU : Option (Option Nat))
    (typeU : Option String) (dateU : Option Nat)
    (newId : Nat) (d : String) (b : ℚ) (cid : Option Nat) (now : Nat) :
    (a ≤ 0 → respError (updateTransaction st tid descU (some a) cidU typeU dateU) = true) ∧
    (d ≠ "" → b < 0 →
      respStore (createTransaction st newId d b cid "expense" now) =
        some { st with transactions := st.transactions ++
          [{ id := newId, description := d, amount := b, category_id := cid,
             transaction_type := "expense", date := now }] }) := by
  constructor
  · intro h
    rw [updateTransaction.eq_def]
    dsimp only
    split
    · rfl
    · split
      · rfl
      · split
        · rfl
        · rename_i hcond
          exact absurd (by simpa using h) hcond
  · intro hd hb
    rw [createTransaction, if_neg (by simp [hd, hb.ne]), if_neg (by decide)]
    rfl

/-- Witness for the amended C6 at concrete inputs: an update carrying
amount -3 is rejected, and a create carrying amount -3 succeeds and appends
the negative transaction. -/
theorem transaction_amount_validation_witness :
    ((-3 : ℚ) ≤ 0 ∧
      respError (updateTransaction oneCatStore 1 none (some (-3)) none none none) = true) ∧
    ("Lunch" ≠ "" ∧ (-3 : ℚ) < 0 ∧
      respStore (createTransaction oneCatStore 2 "Lunch" (-3) (some 1) "expense" 20250214) =
        some { oneCatStore with transactions := oneCatStore.transactions ++
          [{ id := 2, description := "Lunch", amount := -3, category_id := some 1,
             transaction_type := "expense", date := 20250214 }] }) :=
  ⟨⟨by decide,
    (transaction_amount_validation oneCatStore 1 none (-3) none none none 2 "Lunch" (-3)
        (some 1) 20250214).1 (by decide)⟩,
   ⟨by decide, by decide,
    (transaction_amount_validation oneCatStore 1 none (-3) none none none 2 "Lunch" (-3)
        (some 1) 20250214).2 (by decide) (by decide)⟩⟩

/-- Counterexample to C7: deleting a category that no transaction references,
without the hard_delete flag, only deactivates the row — the category is
still stored with is_active cleared, not removed. -/
theorem category_delete_without_flag_keeps_row :
    deleteCategory oneCatStore 1 false =
      (CatDeleteStatus.softDeleted false,
       { oneCatStore with categories :=
          [{ id := 1, name := "Food", budget_limit := 100, is_active := false }] }) ∧
    ({ oneCatStore with categories :=
        [{ id := 1, name := "Food", budget_limit := 100, is_active := false }] }).categories.length
      = oneCatStore.categories.length :=
  ⟨rfl, rfl⟩

/-- C7 as amended: without the hard_delete flag, the endpoint always soft
deletes — the row count is preserved and the matching rows are deactivated —
whether or not transactions reference the category; the row is removed only
when hard_delete=true is passed and no transaction references it. -/
theorem category_delete_behaviour (st : Store) (cid : Nat) (c : Category)
    (hc : st.categories.find? (fun x => x.id == cid) = some c) :
    ((deleteCategory st cid false).1 =
        CatDeleteStatus.softDeleted (decide (0 < referencingCount st cid)) ∧
      (deleteCategory st cid false).2.categories.length = st.categories.length ∧
      ∀ c0 ∈ (deleteCategory st cid false).2.categories,
        c0.id = cid → c0.is_active = false) ∧
    (referencingCount st cid = 0 →
      (deleteCategory st cid true).1 = CatDeleteStatus.hardDeleted ∧
      ∀ c0 ∈ (deleteCategory st cid true).2.categories, c0.id ≠ cid) := by
  constructor
  · have hdel : deleteCategory st cid false =
        (CatDeleteStatus.softDeleted (decide (0 < referencingCount st cid)),
         { st with categories := st.categories.map fun c =>
             if c.id == cid then { c with is_active := false } else c }) := by
      rw [deleteCategory.eq_def, hc]
      simp
    rw [hdel]
    refine ⟨rfl, List.length_map _ _, fun c0 hc0 hid => ?_⟩
    obtain ⟨x, _, hx⟩ := List.mem_map.mp hc0
    by_cases hxid : x.id = cid
    · rw [if_pos (by simp [hxid])] at hx
      rw [← hx]
    · rw [if_neg (by simp [hxid])] at hx
      exact absurd (hx ▸ hid) hxid
  · intro hcnt
    have hdel : deleteCategory st cid true =
        (CatDeleteStatus.hardDeleted,
         { st with categories := st.categories.filter fun c => !(c.id == cid) }) := by
      rw [deleteCategory.eq_def, hc]
      simp [hcnt]
    rw [hdel]
    refine ⟨rfl, fun c0 hc0 => ?_⟩
    have := (List.mem_filter.mp hc0).2
    simpa using this

/-- Witness for the amended C7: the flagless delete of the unreferenced
category soft-deletes it, and the flagged delete removes it. -/
theorem category_delete_behaviour_witness :
    ((deleteCategory oneCatStore 1 false).1 =
        CatDeleteStatus.softDeleted (decide (0 < referencingCount oneCatStore 1)) ∧
     (deleteCategory oneCatStore 1 false).2.categories.length =
        oneCatStore.categories.length) ∧
    ((deleteCategory oneCatStore 1 true).1 = CatDeleteStatus.hardDeleted ∧
     ∀ c0 ∈ (deleteCategory oneCatStore 1 true).2.categories, c0.id ≠ 1) :=
  have h := category_delete_behaviour oneCatStore 1
    { id := 1, name := "Food", budget_limit := 100, is_active := true } (by decide)
  ⟨⟨h.1.1, h.1.2.1⟩, h.2 (by decide)⟩

/-- C8: with hard_delete=true, a category referenced by at least one
transaction yields a conflict answer carrying the referencing transaction
count and leaves the store unchanged; with zero references the row is
permanently removed. -/
theorem category_hard_delete_conflict (st : Store) (cid : Nat) (c : Category)
    (hc : st.categories.find? (fun x => x.id == cid) = some c) :
    (0 < referencingCount st cid →
      deleteCategory st cid true =
        (CatDeleteStatus.conflict (referencingCount st cid), st)) ∧
    (referencingCount st cid = 0 →
      (deleteCategory st cid true).1 = CatDeleteStatus.hardDeleted ∧
      (deleteCategory st cid true).2 =
        { st with categories := st.categories.filter fun x => !(x.id == cid) }) := by
  constructor
  · intro hcnt
    rw [deleteCategory.eq_def, hc]
    simp [hcnt]
  · intro hcnt
    rw [deleteCategory.eq_def, hc]
    simp [hcnt]

/-- Store for the C8 witness: one category referenced by one transaction. -/
def referencedCatStore : Store :=
  { categories := [{ id := 1, name := "Food", budget_limit := 100, is_active := true }]
    transactions := [{ id := 1, description := "Groceries", amount := 20,
                       category_id := some 1, transaction_type := "expense",
                       date := 20250105 }]
    periods := []
    periodBudgets := [] }

/-- Witness for C8: the flagged delete of the referenced category answers
conflict with count 1 and leaves the store unchanged. -/
theorem category_hard_delete_conflict_witness :
    deleteCategory referencedCatStore 1 true =
      (CatDeleteStatus.conflict (referencingCount referencedCatStore 1),
       referencedCatStore) :=
  (category_hard_delete_conflict referencedCatStore 1
    { id := 1, name := "Food", budget_limit := 100, is_active := true }
    (by decide)).1 (by decide)

/-- An UPDATE statement never changes the key columns of an override row. -/
lemma applyBudgetEntry_ids (pid : Nat) (e : Nat × ℚ) (r : PeriodCategoryBudget) :
    (applyBudgetEntry pid e r).period_id = r.period_id ∧
    (applyBudgetEntry pid e r).category_id = r.category_id := by
  rw [applyBudgetEntry]
  split <;> simp

/-- An UPDATE statement whose WHERE clause does not match a row leaves it
unchanged. -/
lemma applyBudgetEntry_no_match (pid : Nat) (e : Nat × ℚ) (r : PeriodCategoryBudget)
    (h : ¬(r.period_id = pid ∧ r.category_id = e.1)) : applyBudgetEntry pid e r = r := by
  rw [applyBudgetEntry, if_neg]
  simpa using h

/-- Running the per-entry UPDATE statements in order over the whole table is
the same as mapping the entry sequence over each row independently. -/
lemma foldl_updates_eq_map (budgets : List (Nat × ℚ)) (pid : Nat)
    (rows : List PeriodCategoryBudget) :
    budgets.foldl (fun rs e => rs.map (applyBudgetEntry pid e)) rows =
      rows.map fun r => budgets.foldl (fun r e => applyBudgetEntry pid e r) r := by
  induction budgets generalizing rows with
  | nil => simp
  | cons e es ih =>
    rw [List.foldl_cons, ih, List.map_map]
    rfl

/-- A row matched by none of the UPDATE statements survives the whole
sequence unchanged. -/
lemma foldl_no_match (pid : Nat) (r : PeriodCategoryBudget)
    (budgets : List (Nat × ℚ))
    (h : ∀ e ∈ budgets, ¬(r.period_id = pid ∧ r.category_id = e.1)) :
    budgets.foldl (fun r e => applyBudgetEntry pid e r) r = r := by
  induction budgets with
  | nil => rfl
  | cons e es ih =>
    rw [List.foldl_cons, applyBudgetEntry_no_match pid e r (h e (by simp))]
    exact ih fun x hx => h x (List.mem_cons_of_mem e hx)

/-- C10: when the period exists and the body is a nonempty array, the bulk
budget update succeeds, touches only the budget_limit column of override rows
already present for the period (same table length, per-row in-place map), and
a stored row matched by no entry — in particular every row of a category that
an entry names but that has no override row — survives unchanged. -/
theorem period_budgets_update_only_existing (st : Store) (pid : Nat)
    (budgets : List (Nat × ℚ)) (p : BudgetPeriod)
    (hne : budgets ≠ [])
    (hp : st.periods.find? (fun q => q.id == pid) = some p) :
    updatePeriodBudgets st pid budgets = Except.ok
      { st with periodBudgets := st.periodBudgets.map fun r =>
          budgets.foldl (fun r e => applyBudgetEntry pid e r) r } ∧
    (st.periodBudgets.map fun r =>
        budgets.foldl (fun r e => applyBudgetEntry pid e r) r).length =
      st.periodBudgets.length ∧
    ∀ r ∈ st.periodBudgets,
      (∀ e ∈ budgets, ¬(r.period_id = pid ∧ r.category_id = e.1)) →
      r ∈ st.periodBudgets.map fun r =>
        budgets.foldl (fun r e => applyBudgetEntry pid e r) r := by
  refine ⟨?_, List.length_map _ _, fun r hr hnomatch => ?_⟩
  · rw [updatePeriodBudgets, if_neg (by simp [hne]), if_neg (by simp [hp]),
      foldl_updates_eq_map]
  · exact List.mem_map.mpr ⟨r, hr, foldl_no_match pid r budgets hnomatch⟩

/-- Store for the C10 witness: period 1 with a single override row for
category 2. -/
def onePcbStore : Store :=
  { categories := []
    transactions := []
    periods := [{ id := 1, period_type := "monthly", start_date := 20250101,
                  end_date := 20250131, is_active := true }]
    periodBudgets := [{ period_id := 1, category_id := 2, budget_limit := 100 }] }

/-- Witness for C10: an update naming category 5, which has no override row
for period 1, succeeds and the existing override row survives unchanged. -/
theorem period_budgets_update_only_existing_witness :
    updatePeriodBudgets onePcbStore 1 [(5, 50)] = Except.ok
      { onePcbStore with periodBudgets := onePcbStore.periodBudgets.map fun r =>
          [((5 : Nat), (50 : ℚ))].foldl (fun r e => applyBudgetEntry 1 e r) r } ∧
    ({ period_id := 1, category_id := 2, budget_limit := 100 } : PeriodCategoryBudget)
      ∈ onePcbStore.periodBudgets.map fun r =>
          [((5 : Nat), (50 : ℚ))].foldl (fun r e => applyBudgetEntry 1 e r) r :=
  have h := period_budgets_update_only_existing onePcbStore 1 [(5, 50)]
    { id := 1, period_type := "monthly", start_date := 20250101,
      end_date := 20250131, is_active := true } (by decide) (by decide)
  ⟨h.1, h.2.2 { period_id := 1, category_id := 2, budget_limit := 100 }
    (by decide) (by decide)⟩

/-- Membership through one sorted-descending insertion of a month key. -/
lemma mem_insertMonthDesc {x m : Nat} {l : List Nat} :
    x ∈ insertMonthDesc m l ↔ x = m ∨ x ∈ l := by
  induction l with
  | nil => simp [insertMonthDesc]
  | cons a as ih =>
    rw [insertMonthDesc]
    split
    · simp [List.mem_cons]
    · split
      · rename_i hle hbeq
        have hma : m = a := by simpa using hbeq
        subst hma
        simp [List.mem_cons]
      · rw [List.mem_cons, ih, List.mem_cons]
        tauto

/-- Sorted-descending insertion preserves strict descending order. -/
lemma insertMonthDesc_pairwise {m : Nat} {l : List Nat}
    (h : l.Pairwise (· > ·)) : (insertMonthDesc m l).Pairwise (· > ·) := by
  induction l with
  | nil => simp [insertMonthDesc]
  | cons a as ih =>
    rw [insertMonthDesc]
    have hp := List.pairwise_cons.mp h
    split
    · rename_i hlt
      refine List.Pairwise.cons ?_ h
      intro b hb
      rcases List.mem_cons.mp hb with rfl | hb
      · exact hlt
      · exact lt_trans (hp.1 b hb) hlt
    · split
      · exact h
      · rename_i hnlt hbeq
        have hma : m ≠ a := by simpa using hbeq
        have hlt : m < a := lt_of_le_of_ne (Nat.not_lt.mp hnlt) hma
        refine List.Pairwise.cons ?_ (ih hp.2)
        intro b hb
        rcases mem_insertMonthDesc.mp hb with rfl | hb
        · exact hlt
        · exact hp.1 b hb

/-- The grouped month keys are strictly descending. -/
lemma monthsDesc_pairwise (ms : List Nat) : (monthsDesc ms).Pairwise (· > ·) := by
  induction ms with
  | nil => simp [monthsDesc]
  | cons a as ih => exact insertMonthDesc_pairwise ih

/-- The grouped month keys are exactly the month keys of the input. -/
lemma mem_monthsDesc {x : Nat} {ms : List Nat} : x ∈ monthsDesc ms ↔ x ∈ ms := by
  induction ms with
  | nil => simp [monthsDesc]
  | cons a as ih =>
    show x ∈ insertMonthDesc a (monthsDesc as) ↔ _
    rw [mem_insertMonthDesc, ih, List.mem_cons]

/-- The month column of the monthly-trend response is the limited descending
month list, reversed. -/
lemma monthlyTrend_months (st : Store) (sd ed : Option Nat) :
    (monthlyTrend st sd ed).map TrendRow.month =
      (if sd.isNone && ed.isNone then
        (monthsDesc ((st.transactions.filter fun t => inWindow sd ed t.date).map txMonth)).take 12
       else
        monthsDesc ((st.transactions.filter fun t => inWindow sd ed t.date).map txMonth)).reverse := by
  simp only [monthlyTrend, List.map_reverse, List.map_map]
  congr 1
  exact List.map_id _

/-- C9: the monthly trend groups windowed transactions by calendar month with
income and expense sums, emits months in ascending order, caps the output at
the 12 most recent months present only when neither date bound is supplied
(every month older than the emitted ones is dropped), and is uncapped — every
in-window month appears — when a bound is given. -/
theorem monthly_trend_contract (st : Store) (sd ed : Option Nat) :
    ((monthlyTrend st sd ed).map TrendRow.month).Pairwise (· < ·) ∧
    (∀ r ∈ monthlyTrend st sd ed,
      r.income = incomeSum ((st.transactions.filter fun t => inWindow sd ed t.date).filter
        fun t => txMonth t == r.month) ∧
      r.expenses = expenseSum ((st.transactions.filter fun t => inWindow sd ed t.date).filter
        fun t => txMonth t == r.month)) ∧
    (sd = none → ed = none →
      (monthlyTrend st sd ed).length ≤ 12 ∧
      ∀ m : Nat, (∃ t ∈ st.transactions, txMonth t = m) →
        (∀ r ∈ monthlyTrend st sd ed, r.month ≠ m) →
        ∀ r ∈ monthlyTrend st sd ed, m ≤ r.month) ∧
    ((sd ≠ none ∨ ed ≠ none) →
      ∀ t ∈ st.transactions, inWindow sd ed t.date = true →
        ∃ r ∈ monthlyTrend st sd ed, r.month = txMonth t) := by
  have hA := monthsDesc_pairwise
    ((st.transactions.filter fun t => inWindow sd ed t.date).map txMonth)
  refine ⟨?_, ?_, ?_, ?_⟩
  · rw [monthlyTrend_months, List.pairwise_reverse]
    split
    · exact List.Pairwise.sublist (List.take_sublist _ _) hA
    · exact hA
  · intro r hr
    simp only [monthlyTrend] at hr
    obtain ⟨m, _, rfl⟩ := List.mem_map.mp (List.mem_reverse.mp hr)
    exact ⟨rfl, rfl⟩
  · rintro rfl rfl
    have hcT : (((none : Option Nat).isNone) && ((none : Option Nat).isNone)) = true := rfl
    constructor
    · simp only [monthlyTrend, List.length_reverse, List.length_map]
      rw [if_pos hcT]
      exact List.length_take_le _ _
    · rintro m ⟨t, ht, htm⟩ hnot r hr
      have htW : t ∈ st.transactions.filter
          fun t => inWindow (none : Option Nat) none t.date :=
        List.mem_filter.mpr ⟨ht, rfl⟩
      have hmA : m ∈ monthsDesc ((st.transactions.filter
          fun t => inWindow (none : Option Nat) none t.date).map txMonth) :=
        mem_monthsDesc.mpr (List.mem_map.mpr ⟨t, htW, htm⟩)
      have hmonths : (monthlyTrend st none none).map TrendRow.month =
          ((monthsDesc ((st.transactions.filter
            fun t => inWindow (none : Option Nat) none t.date).map txMonth)).take 12).reverse := by
        rw [monthlyTrend_months, if_pos hcT]
      have hmNotTake : m ∉ (monthsDesc ((st.transactions.filter
          fun t => inWindow (none : Option Nat) none t.date).map txMonth)).take 12 := by
        intro hmem
        have : m ∈ (monthlyTrend st none none).map TrendRow.month := by
          rw [hmonths, List.mem_reverse]
          exact hmem
        obtain ⟨r0, hr0, hm0⟩ := List.mem_map.mp this
        exact hnot r0 hr0 hm0
      have hmDrop : m ∈ (monthsDesc ((st.transactions.filter
          fun t => inWindow (none : Option Nat) none t.date).map txMonth)).drop 12 := by
        have := hmA
        rw [← List.take_append_drop 12 (monthsDesc _), List.mem_append] at this
        exact this.resolve_left hmNotTake
      have hrTake : r.month ∈ (monthsDesc ((st.transactions.filter
          fun t => inWindow (none : Option Nat) none t.date).map txMonth)).take 12 := by
        have : r.month ∈ (monthlyTrend st none none).map TrendRow.month :=
          List.mem_map_of_mem TrendRow.month hr
        rw [hmonths, List.mem_reverse] at this
        exact this
      have hsplit := hA
      rw [← List.take_append_drop 12 (monthsDesc _), List.pairwise_append] at hsplit
      exact le_of_lt (hsplit.2.2 r.month hrTake m hmDrop)
  · intro hb t ht htw
    have hcond : (sd.isNone && ed.isNone) = false := by
      rcases hb with h | h
      · cases sd
        · exact absurd rfl h
        · rfl
      · cases ed
        · exact absurd rfl h
        · cases sd <;> rfl
    have htW : t ∈ st.transactions.filter fun t => inWindow sd ed t.date :=
      List.mem_filter.mpr ⟨ht, htw⟩
    have hmA : txMonth t ∈ monthsDesc ((st.transactions.filter
        fun t => inWindow sd ed t.date).map txMonth) :=
      mem_monthsDesc.mpr (List.mem_map.mpr ⟨t, htW, rfl⟩)
    refine ⟨{ month := txMonth t,
              income := incomeSum ((st.transactions.filter
                fun t => inWindow sd ed t.date).filter fun x => txMonth x == txMonth t),
              expenses := expenseSum ((st.transactions.filter
                fun t => inWindow sd ed t.date).filter fun x => txMonth x == txMonth t) },
      ?_, rfl⟩
    simp only [monthlyTrend]
    rw [List.mem_reverse, hcond]
    exact List.mem_map.mpr ⟨txMonth t, hmA, rfl⟩

/-- Store for the C9 witness: one income in January and one expense in
February of 2025. -/
def trendStore : Store :=
  { categories := []
    transactions := [{ id := 1, description := "Pay", amount := 1000,
                       category_id := none, transaction_type := "income",
                       date := 20250110 },
                     { id := 2, description := "Rent", amount := 800,
                       category_id := none, transaction_type := "expense",
                       date := 20250201 }]
    periods := []
    periodBudgets := [] }

/-- Witness for C9: without bounds the output is capped at 12 rows, and with
a start bound the February month appears in the output. -/
theorem monthly_trend_contract_witness :
    (monthlyTrend trendStore none none).length ≤ 12 ∧
    ∃ r ∈ monthlyTrend trendStore (some 20250101) none, r.month = 202502 :=
  ⟨((monthly_trend_contract trendStore none none).2.2.1 rfl rfl).1,
   (monthly_trend_contract trendStore (some 20250101) none).2.2.2
     (Or.inl (by simp))
     { id := 2, description := "Rent", amount := 800, category_id := none,
       transaction_type := "expense", date := 20250201 }
     (by decide) (by decide)⟩
